import Mathlib

/-!
Shallow embedding of the retention/eligibility core of `zfs-snappers`
(`src/zfs.rs`): the record model `FS`, the configuration object `Zfs`,
the line parser `str2fs` (with its helpers `splitSep`, `eval`,
`parseNat`, `parseInt`), and the decision functions `filter_snaps`,
`find_expendable_snapshots`, `next_snapshot_needed`, `sname` and
`remove_snapshot`.

Modelling conventions:
* Rust `&str` values are embedded as `List Char` (named `Str` below), so
  that splitting and concatenation are ordinary list operations.
* `usize` becomes `Nat`, the `i64` epoch-seconds inside `DateTime<Utc>`
  becomes `Int`; 64-bit overflow of `str::parse` is not modelled (every
  value occurring in the claims is far below the overflow bound), and
  chrono's panic for epochs beyond roughly ±262000 years is likewise out
  of scope of every claim.
* A Rust panic (out-of-bounds indexing in `str2fs`) is modelled by the
  parser returning `none`.
* `remove_snapshot` talks to the external `zfs` binary; the model returns
  the list of argument vectors it would pass to the binary together with
  the error, so that "no destroy request is issued" is expressible.
  External process failures (`ZfsError::IOError`) happen outside the
  embedded code and are not produced by the model.
* `slice::sort_unstable_by` is modelled by `List.insertionSort` over the
  same comparator. For the list lengths appearing in concrete statements
  below Rust's pdqsort also runs a plain insertion sort, which keeps
  elements that compare equal in input order, so the model agrees with
  the code there; the general theorems only use that the result is a
  permutation sorted by the comparator.
-/

namespace ZfsSnappers

/-- Rust `&str` / `String`, embedded as a list of characters. -/
abbrev Str := List Char

/-- `enum FsType { Filesystem, Snapshot }` from `src/zfs.rs`. -/
inductive FsType where
  | Filesystem : FsType
  | Snapshot : FsType
deriving DecidableEq, Inhabited

/-- `struct FS` from `src/zfs.rs`: one filesystem or snapshot record.
`fs` is the owning filesystem (`owning_filesystem` in the spec),
`snap` the auto-snapshot flag, `written` the `used` column in bytes,
`date` the creation time as epoch seconds. -/
structure FS where
  name : Str
  date : Int
  fs_type : FsType
  snap : Bool
  written : Nat
  fs : Str
deriving DecidableEq, Inhabited

/-- `struct Zfs` from `src/zfs.rs` (the `executable` path, which is read
from the environment, carries no decision logic and is omitted).
The Rust field `prefix` is called `pfx` here because `prefix` is a Lean
keyword. -/
structure Zfs where
  pretend : Bool
  pfx : Str
  option_name : Str
  label : Str
  history : Nat
  timestamp : Str
deriving DecidableEq, Inhabited

/-- `Zfs::new` from `src/zfs.rs`. -/
def Zfs.new (pretend : Bool) (pfx label : Str) (history : Nat) (date : Str) : Zfs :=
  { pretend := pretend
    pfx := pfx
    option_name := "com.sun:auto-snapshot".toList
    label := label
    history := history
    timestamp := date }

/-- `Zfs::sname` from `src/zfs.rs`:
`format!("{name}@{prefix}_{label}-{ts}")`, where `ts` is the configured
run timestamp when the argument is `None`. -/
def Zfs.sname (z : Zfs) (name : Str) (timestamp : Option Str) : Str :=
  let ts : Str := match timestamp with
    | none => z.timestamp
    | some s => s
  name ++ ('@' :: z.pfx) ++ ('_' :: z.label) ++ ('-' :: ts)

/-- The comparator passed to `sort_unstable_by` in `Zfs::filter_snaps`:
`a.date.cmp(&b.date)`, read as the sorting relation "`a` is at most `b`". -/
def dle (a b : FS) : Prop := a.date ≤ b.date

instance : DecidableRel dle := fun a b => inferInstanceAs (Decidable (a.date ≤ b.date))

instance : IsTotal FS dle := ⟨fun a b => Int.le_total a.date b.date⟩

instance : IsTrans FS dle := ⟨fun _ _ _ hab hbc => le_trans hab hbc⟩

/-- The filter step of `Zfs::filter_snaps`: keep the records of `snaps`
whose `name` starts with `sname(fs.name, Some(""))`
(`sn.name.strip_prefix(name).is_some()` in the source). -/
def Zfs.matching (z : Zfs) (fs : FS) (snaps : List FS) : List FS :=
  let name := z.sname fs.name (some [])
  snaps.filter (fun sn => decide (name <+: sn.name))

/-- `Zfs::filter_snaps` from `src/zfs.rs`: filter to the records whose
name extends the configured snapshot-name stem for `fs`, then
`sort_unstable_by(|a, b| a.date.cmp(&b.date))` (ascending by date). -/
def Zfs.filter_snaps (z : Zfs) (fs : FS) (snaps : List FS) : List FS :=
  (z.matching fs snaps).insertionSort dle

/-- `Zfs::find_expendable_snapshots` from `src/zfs.rs`: if more matching
snapshots exist than `history`, return the sorted list minus its last
`history` elements, else the empty list. -/
def Zfs.find_expendable_snapshots (z : Zfs) (fs : FS) (snaps : List FS) : List FS :=
  let s := z.filter_snaps fs snaps
  if s.length > z.history then s.take (s.length - z.history) else []

/-- `Zfs::next_snapshot_needed` from `src/zfs.rs`: `snaps.last()` of the
ascending-sorted matching list is the most recent matching snapshot;
no match means `true`, otherwise `written > min_size`. -/
def Zfs.next_snapshot_needed (z : Zfs) (min_size : Nat) (fs : FS) (snaps : List FS) : Bool :=
  match (z.filter_snaps fs snaps).getLast? with
  | some f => decide (min_size < f.written)
  | none => true

/-- `enum ZfsError` from `src/zfs.rs`. `IOError` stands for an external
process failure and is never produced by the embedded functions. -/
inductive ZfsError where
  | IOError : ZfsError
  | InternalError : String → ZfsError
deriving DecidableEq

/-- `Zfs::remove_snapshot` from `src/zfs.rs`. The first component is the
list of argument vectors passed to the external binary (empty in pretend
mode and on the error path, where the function returns early); the second
is the error, if any. -/
def Zfs.remove_snapshot (z : Zfs) (fs : FS) : List (List Str) × Option ZfsError :=
  if fs.snap = false then
    ([], some (ZfsError.InternalError "Filesystems can't be removed!"))
  else
    ((if z.pretend then [] else [["destroy".toList, fs.name]]), none)

/-- `eval` from `src/zfs.rs`: a property column counts as set exactly
when it is present and equals the literal `"true"`. -/
def eval (opt : Option Str) : Bool :=
  match opt with
  | some o => decide (o = "true".toList)
  | none => false

/-- Rust `str::split(sep)` on a character separator: always returns at
least one piece, an empty input gives `[""]`, a trailing separator a
trailing empty piece. -/
def splitSep (sep : Char) : Str → List Str
  | [] => [[]]
  | c :: rest =>
    match splitSep sep rest with
    | [] => [[c]]
    | s :: ss => if c = sep then [] :: s :: ss else (c :: s) :: ss

/-- All characters are decimal digits and there is at least one. -/
def isDigits (s : Str) : Bool := decide (s ≠ []) && s.all (·.isDigit)

/-- Decimal value of a digit string. -/
def digitsToNat (s : Str) : Nat := s.foldl (fun a c => a * 10 + (c.toNat - '0'.toNat)) 0

/-- Rust `str::parse::<usize>()`: an optional leading `+` followed by at
least one decimal digit (64-bit overflow not modelled). -/
def parseNat (s : Str) : Option Nat :=
  match s with
  | '+' :: rest => if isDigits rest then some (digitsToNat rest) else none
  | _ => if isDigits s then some (digitsToNat s) else none

/-- Rust `str::parse::<i64>()`: an optional sign followed by at least one
decimal digit (64-bit overflow not modelled). -/
def parseInt (s : Str) : Option Int :=
  match s with
  | '+' :: rest => if isDigits rest then some ((digitsToNat rest : Int)) else none
  | '-' :: rest => if isDigits rest then some (-(digitsToNat rest : Int)) else none
  | _ => if isDigits s then some ((digitsToNat s : Int)) else none

/-- `str2fs` from `src/zfs.rs`. The source indexes `p[1]` and `p[4]`
unconditionally, which panics when the line has fewer than five
tab-separated fields; the panic is modelled as `none` (`p[0]` always
exists because `split` returns at least one piece). Unparsable numeric
fields default to `0` via `unwrap_or_default`. For a snapshot the owning
filesystem `fs` is `name.split('@').next().unwrap()`, the part of the
name before the first `@`. -/
def str2fs (s : Str) (ft : FsType) : Option FS :=
  let p := splitSep '\t' s
  match p[1]?, p[4]? with
  | some p1, some p4 =>
    let name := p.headI
    some
      { name := name
        written := (parseNat p1).getD 0
        snap := eval p[2]? || eval p[3]?
        date := (parseInt p4).getD 0
        fs_type := ft
        fs := match ft with
          | FsType.Filesystem => name
          | FsType.Snapshot => (splitSep '@' name).headI }
  | _, _ => none

/-! ### Basic facts about the embedded operations -/

theorem filter_snaps_perm (z : Zfs) (fs : FS) (snaps : List FS) :
    (z.filter_snaps fs snaps).Perm (z.matching fs snaps) :=
  List.perm_insertionSort dle (z.matching fs snaps)

theorem filter_snaps_sorted (z : Zfs) (fs : FS) (snaps : List FS) :
    List.Sorted dle (z.filter_snaps fs snaps) :=
  List.sorted_insertionSort dle (z.matching fs snaps)

theorem filter_snaps_length (z : Zfs) (fs : FS) (snaps : List FS) :
    (z.filter_snaps fs snaps).length = (z.matching fs snaps).length :=
  (filter_snaps_perm z fs snaps).length_eq

/-- In a `dle`-sorted list, an element strictly below every other element
is the head. -/
theorem head_of_strict_min {l : List FS} (hs : List.Sorted dle l) {m : FS}
    (hm : m ∈ l) (hmin : ∀ y ∈ l, y ≠ m → m.date < y.date) : l.head? = some m := by
  cases l with
  | nil => cases hm
  | cons a t =>
    by_cases ham : a = m
    · simp [ham]
    · rcases List.mem_cons.mp hm with h | h
      · exact absurd h.symm ham
      · have h1 : dle a m := List.rel_of_sorted_cons hs m h
        have h2 : m.date < a.date := hmin a (List.mem_cons_self a t) ham
        exact absurd (lt_of_le_of_lt h1 h2) (lt_irrefl _)

/-- In a `dle`-sorted list, an element strictly above every other element
is the last. -/
theorem getLast_of_strict_max {l : List FS} (hs : List.Sorted dle l) {m : FS}
    (hm : m ∈ l) (hmax : ∀ y ∈ l, y ≠ m → y.date < m.date) : l.getLast? = some m := by
  induction l with
  | nil => cases hm
  | cons a t ih =>
    cases t with
    | nil =>
      rcases List.mem_cons.mp hm with h | h
      · simp [h.symm]
      · cases h
    | cons b t' =>
      have hmem : m ∈ b :: t' := by
        rcases List.mem_cons.mp hm with h | h
        · by_cases hbm : b = m
          · exact hbm ▸ List.mem_cons_self b t'
          · have h1 : dle a b := List.rel_of_sorted_cons hs b (List.mem_cons_self b t')
            have h2 : b.date < m.date :=
              hmax b (List.mem_cons_of_mem _ (List.mem_cons_self b t')) hbm
            rw [← h] at h1
            exact absurd (lt_of_le_of_lt h1 h2) (lt_irrefl _)
        · exact h
      have := ih hs.of_cons hmem (fun y hy => hmax y (List.mem_cons_of_mem _ hy))
      rw [List.getLast?_cons_cons]
      exact this

/-! ### Concrete records (taken from the repository's unit tests, plus
small variations used below) -/

/-- The `Zfs` configuration of the unit test
`find_expendable_snapshots_enough` (`keep = 1`). -/
def zT : Zfs := Zfs.new true "zfs-snapshot".toList "weekly".toList 1 "2019-12-30_1807".toList

/-- The `Zfs` configuration of the unit test
`find_expendable_snapshots_to_less` (`keep = 4`). -/
def z4T : Zfs := Zfs.new true "zfs-snapshot".toList "weekly".toList 4 "2019-12-30_1807".toList

/-- The filesystem record of the unit tests. -/
def fsT : FS :=
  (str2fs "tank/SRV/www\t245643\t-\t-\t121212112".toList FsType.Filesystem).getD default

/-- The three snapshot records of the unit tests (`get_snaps`). -/
def snapsT : List FS :=
  [ (str2fs "tank/SRV/www@zfs-snapshot_weekly-2019-12-30_1207\t23234\t-\t-\t1608216421".toList
      FsType.Snapshot).getD default
  , (str2fs "tank/SRV/www@zfs-snapshot_weekly-2019-12-30_1907\t245643\t-\t-\t1608216921".toList
      FsType.Snapshot).getD default
  , (str2fs "tank/SRV/www@zfs-snapshot_weekly-2019-12-30_1607\t12340\t-\t-\t1608216821".toList
      FsType.Snapshot).getD default ]

/-! ### C1: the retention computation -/

/-- C1: for every filesystem record, snapshot list and retention count
(`history`), `find_expendable_snapshots` returns the empty list when at
most `history` snapshots match; otherwise it returns exactly
`matching − history` snapshots, which together with some list `kept` of
the `history` retained ones partition the matching snapshots, and every
returned snapshot is at least as old as every retained one; and
`history = 0` makes the result a permutation of all matching
snapshots. -/
theorem expendable_retention_spec (z : Zfs) (fs : FS) (snaps : List FS) :
    ((z.matching fs snaps).length ≤ z.history → z.find_expendable_snapshots fs snaps = [])
  ∧ (z.history < (z.matching fs snaps).length →
      ∃ kept : List FS,
        kept.length = z.history
        ∧ (z.matching fs snaps).Perm (z.find_expendable_snapshots fs snaps ++ kept)
        ∧ (z.find_expendable_snapshots fs snaps).length
            = (z.matching fs snaps).length - z.history
        ∧ ∀ x ∈ z.find_expendable_snapshots fs snaps, ∀ y ∈ kept, x.date ≤ y.date)
  ∧ (z.history = 0 → (z.find_expendable_snapshots fs snaps).Perm (z.matching fs snaps)) := by
  have hlen := filter_snaps_length z fs snaps
  have hperm := filter_snaps_perm z fs snaps
  have hsort := filter_snaps_sorted z fs snaps
  refine ⟨?_, ?_, ?_⟩
  · intro hle
    have hng : ¬ (z.filter_snaps fs snaps).length > z.history := by omega
    simp [Zfs.find_expendable_snapshots, hng]
  · intro hlt
    have hgt : (z.filter_snaps fs snaps).length > z.history := by omega
    have hres : z.find_expendable_snapshots fs snaps
        = (z.filter_snaps fs snaps).take ((z.filter_snaps fs snaps).length - z.history) := by
      simp [Zfs.find_expendable_snapshots, hgt]
    refine ⟨(z.filter_snaps fs snaps).drop ((z.filter_snaps fs snaps).length - z.history),
      ?_, ?_, ?_, ?_⟩
    · rw [List.length_drop]; omega
    · rw [hres, List.take_append_drop]; exact hperm.symm
    · rw [hres, List.length_take]; omega
    · intro x hx y hy
      rw [hres] at hx
      exact hsort.rel_of_mem_take_of_mem_drop hx hy
  · intro h0
    by_cases hz : (z.filter_snaps fs snaps).length > z.history
    · have hres : z.find_expendable_snapshots fs snaps
          = (z.filter_snaps fs snaps).take ((z.filter_snaps fs snaps).length - z.history) := by
        simp [Zfs.find_expendable_snapshots, hz]
      rw [hres, h0, Nat.sub_zero, List.take_length]
      exact hperm
    · have hlen0 : (z.matching fs snaps).length = 0 := by omega
      have hm : z.matching fs snaps = [] := List.length_eq_zero.mp hlen0
      have hr : z.find_expendable_snapshots fs snaps = [] := by
        simp [Zfs.find_expendable_snapshots, hz]
      rw [hr, hm]

/-- C1 witness: the `keep = 4` unit-test scenario has only three matching
snapshots, so nothing is expendable. -/
theorem expendable_retention_spec_witness :
    z4T.find_expendable_snapshots fsT snapsT = [] :=
  (expendable_retention_spec z4T fsT snapsT).1 (by decide)

/-! ### C9: order of the returned list -/

/-- C9: the list returned by `find_expendable_snapshots` is sorted
ascending by creation time, oldest first. -/
theorem expendable_sorted_ascending (z : Zfs) (fs : FS) (snaps : List FS) :
    List.Pairwise (fun a b => a.date ≤ b.date) (z.find_expendable_snapshots fs snaps) := by
  have hsort : List.Pairwise dle (z.filter_snaps fs snaps) := filter_snaps_sorted z fs snaps
  by_cases hz : (z.filter_snaps fs snaps).length > z.history
  · have hres : z.find_expendable_snapshots fs snaps
        = (z.filter_snaps fs snaps).take ((z.filter_snaps fs snaps).length - z.history) := by
      simp [Zfs.find_expendable_snapshots, hz]
    rw [hres]
    exact List.Pairwise.sublist (List.take_sublist _ _) hsort
  · simp [Zfs.find_expendable_snapshots, hz]

/-! ### C2: the eligibility check -/

/-- C2: `next_snapshot_needed` is true when no snapshot matches, and
otherwise — whenever the most recent matching snapshot is well defined,
i.e. strictly more recent than every other matching one — it is true
exactly when that snapshot's `written` strictly exceeds `min_size`. -/
theorem next_snapshot_needed_spec (z : Zfs) (min_size : Nat) (fs : FS) (snaps : List FS) :
    (z.matching fs snaps = [] → z.next_snapshot_needed min_size fs snaps = true)
  ∧ ∀ m ∈ z.matching fs snaps,
      (∀ y ∈ z.matching fs snaps, y ≠ m → y.date < m.date) →
      (z.next_snapshot_needed min_size fs snaps = true ↔ min_size < m.written) := by
  constructor
  · intro hm
    have hempty : z.filter_snaps fs snaps = [] := by
      simp [Zfs.filter_snaps, hm]
    simp [Zfs.next_snapshot_needed, hempty]
  · intro m hm hmax
    have hperm := filter_snaps_perm z fs snaps
    have hm' : m ∈ z.filter_snaps fs snaps := hperm.mem_iff.mpr hm
    have hmax' : ∀ y ∈ z.filter_snaps fs snaps, y ≠ m → y.date < m.date :=
      fun y hy => hmax y (hperm.subset hy)
    have hlast := getLast_of_strict_max (filter_snaps_sorted z fs snaps) hm' hmax'
    simp [Zfs.next_snapshot_needed, hlast]

/-- Configuration used by several concrete statements below:
`prefix "p"`, `label "l"`, `keep 1`, dry-run. -/
def zP : Zfs := Zfs.new true "p".toList "l".toList 1 "T".toList

/-- A plain filesystem record named `tank`. -/
def fsP : FS := (str2fs "tank\t0\t-\t-\t0".toList FsType.Filesystem).getD default

/-- A snapshot of `tank` under the `p`/`l` scheme with `written = 500`. -/
def snap500 : FS :=
  (str2fs "tank@p_l-a\t500\t-\t-\t10".toList FsType.Snapshot).getD default

/-- C2 witness: the spec scenario — the latest matching snapshot has
`bytes_written = 500` and `min_size = 1000`, so no snapshot is needed. -/
theorem next_snapshot_needed_spec_witness :
    zP.next_snapshot_needed 1000 fsP [snap500] = false := by
  have h := (next_snapshot_needed_spec zP 1000 fsP [snap500]).2 snap500 (by decide) (by decide)
  have h2 : ¬ (1000 < snap500.written) := by decide
  cases hb : zP.next_snapshot_needed 1000 fsP [snap500]
  · rfl
  · exact absurd (h.mp hb) h2

/-! ### C3: the destroy guard -/

/-- A record of kind `Snapshot` whose auto-snapshot flag is `false`
(both property columns are `-`). -/
def snapNoFlag : FS :=
  (str2fs "tank@p_l-x\t0\t-\t-\t5".toList FsType.Snapshot).getD default

/-- C3 counterexample: `remove_snapshot` fails on this record although
its kind is `Snapshot` — the source guards on the `snap` flag (the
auto-snapshot property), not on the record kind. -/
theorem remove_snapshot_kind_cex :
    snapNoFlag.fs_type = FsType.Snapshot
    ∧ ((zP.remove_snapshot snapNoFlag).2.isSome = true) := by decide

/-- C3 amended: `remove_snapshot` fails with an `InternalError` exactly
when the record's auto-snapshot flag `snap` is `false` (not when its
kind is not `Snapshot`), and in that case no destroy request is issued
to the external tool. -/
theorem remove_snapshot_guard (z : Zfs) (fs : FS) :
    ((z.remove_snapshot fs).2.isSome = true ↔ fs.snap = false)
  ∧ (fs.snap = false →
      (z.remove_snapshot fs).2
          = some (ZfsError.InternalError "Filesystems can't be removed!")
        ∧ (z.remove_snapshot fs).1 = []) := by
  unfold Zfs.remove_snapshot
  by_cases h : fs.snap = false <;> simp [h]

/-- C3 amended witness: the guard at the concrete record above. -/
theorem remove_snapshot_guard_witness :
    (zP.remove_snapshot snapNoFlag).2
        = some (ZfsError.InternalError "Filesystems can't be removed!")
      ∧ (zP.remove_snapshot snapNoFlag).1 = [] :=
  (remove_snapshot_guard zP snapNoFlag).2 (by decide)

/-! ### Parser characterization -/

/-- When fields 1 and 4 exist, `str2fs` returns exactly the record the
source constructs. -/
theorem str2fs_some {s : Str} {p1 p4 : Str} (ft : FsType)
    (h1 : (splitSep '\t' s)[1]? = some p1)
    (h4 : (splitSep '\t' s)[4]? = some p4) :
    str2fs s ft = some
      { name := (splitSep '\t' s).headI
        written := (parseNat p1).getD 0
        snap := eval ((splitSep '\t' s)[2]?) || eval ((splitSep '\t' s)[3]?)
        date := (parseInt p4).getD 0
        fs_type := ft
        fs := match ft with
          | FsType.Filesystem => (splitSep '\t' s).headI
          | FsType.Snapshot => (splitSep '@' ((splitSep '\t' s).headI)).headI } := by
  simp [str2fs, h1, h4]

/-- A property column satisfies `eval` exactly when it is present and
equal to the literal `"true"`. -/
theorem eval_eq_true_iff (o : Option Str) : eval o = true ↔ o = some "true".toList := by
  cases o <;> simp [eval]

/-! ### C5: lines without the creation field -/

/-- C5 counterexample: a line with exactly the four required fields
(no creation field) does not parse — `str2fs` indexes `p[4]`
unconditionally, which panics in the source (modelled as `none`),
instead of succeeding with an unknown creation time. -/
theorem str2fs_four_fields_cex :
    str2fs "tank\t24576\t-\ttrue".toList FsType.Filesystem = none := by decide

/-- C5 amended: parsing fails (the source panics with an out-of-bounds
index) exactly when the line has fewer than five tab-separated fields;
a missing creation field is not tolerated, and no `MalformedRecord`
error value exists in the code. -/
theorem str2fs_none_iff (s : Str) (ft : FsType) :
    str2fs s ft = none ↔ (splitSep '\t' s).length < 5 := by
  constructor
  · intro h
    by_contra hlt
    push_neg at hlt
    have hl1 : 1 < (splitSep '\t' s).length := by omega
    have hl4 : 4 < (splitSep '\t' s).length := by omega
    have h1 := List.getElem?_eq_getElem hl1
    have h4 := List.getElem?_eq_getElem hl4
    rw [str2fs_some ft h1 h4] at h
    cases h
  · intro hlt
    have h4 : (splitSep '\t' s)[4]? = none := List.getElem?_eq_none (by omega)
    cases h1 : (splitSep '\t' s)[1]? <;> simp [str2fs, h1, h4]

/-! ### C6: the auto-snapshot flag -/

/-- The record parsed from the spec scenario line
`"tank\t24576\t-\ttrue\t1608216521"` with kind `Filesystem`. -/
def rFlag : FS :=
  (str2fs "tank\t24576\t-\ttrue\t1608216521".toList FsType.Filesystem).getD default

/-- C6: for every successfully parsed line the record's flag is true
exactly when the inherited (third) or the local (fourth) property field
equals the literal `"true"` — a pure OR, absent fields counting as
false — and the spec scenario line parses to `name = "tank"`,
`written = 24576`, flag set. -/
theorem auto_snapshot_flag_spec :
    (∀ (s : Str) (ft : FsType) (r : FS), str2fs s ft = some r →
      (r.snap = true ↔ (splitSep '\t' s)[2]? = some "true".toList
                     ∨ (splitSep '\t' s)[3]? = some "true".toList))
  ∧ str2fs "tank\t24576\t-\ttrue\t1608216521".toList FsType.Filesystem = some rFlag
    ∧ rFlag.name = "tank".toList ∧ rFlag.written = 24576 ∧ rFlag.snap = true := by
  constructor
  · intro s ft r h
    have hsnap : r.snap
        = (eval ((splitSep '\t' s)[2]?) || eval ((splitSep '\t' s)[3]?)) := by
      cases h1 : (splitSep '\t' s)[1]? with
      | none => simp [str2fs, h1] at h
      | some p1 =>
        cases h4 : (splitSep '\t' s)[4]? with
        | none => simp [str2fs, h1, h4] at h
        | some p4 =>
          rw [str2fs_some ft h1 h4] at h
          injection h with h2
          rw [← h2]
    rw [hsnap, Bool.or_eq_true, eval_eq_true_iff, eval_eq_true_iff]
  · exact ⟨by decide, by decide, by decide, by decide⟩

/-- C6 witness: the scenario record has its flag set, via the general
theorem applied to the scenario line (the local column is `"true"`). -/
theorem auto_snapshot_flag_spec_witness : rFlag.snap = true :=
  (auto_snapshot_flag_spec.1 "tank\t24576\t-\ttrue\t1608216521".toList FsType.Filesystem rFlag
    (by decide)).mpr (Or.inr (by decide))

/-! ### C4: ties in the recency order -/

/-- A matching snapshot of `tank` with name suffix `z` and date `5`. -/
def snapTieZ : FS :=
  (str2fs "tank@p_l-z\t0\t-\t-\t5".toList FsType.Snapshot).getD default

/-- A matching snapshot of `tank` with name suffix `a` and the same
date `5`. -/
def snapTieA : FS :=
  (str2fs "tank@p_l-a\t0\t-\t-\t5".toList FsType.Snapshot).getD default

/-- C4 counterexample: two matching snapshots with identical creation
timestamps and distinct names. Which of the two is expendable under
`keep = 1` follows the order of the input list, not the name order: the
two input orders of the same two records give different results, so the
choice is not fixed by the names. -/
theorem tie_break_cex :
    snapTieA.date = snapTieZ.date ∧ snapTieA ≠ snapTieZ
    ∧ zP.find_expendable_snapshots fsP [snapTieZ, snapTieA] = [snapTieZ]
    ∧ zP.find_expendable_snapshots fsP [snapTieA, snapTieZ] = [snapTieA] := by decide

/-- C4 amended: the sort comparator uses only the creation time, so ties
are not broken by name; two matching snapshots with equal timestamps
keep their relative input order through the sort (the sort is stable on
the small lists for which the source's unstable sort degenerates to an
insertion sort), so which tied snapshot is retained depends on the
position in the listing, not on the names. -/
theorem tie_order_input (z : Zfs) (fs : FS) (snaps : List FS) (a b : FS)
    (hd : a.date = b.date) (hsub : List.Sublist [a, b] (z.matching fs snaps)) :
    List.Sublist [a, b] (z.filter_snaps fs snaps) :=
  List.pair_sublist_insertionSort (le_of_eq hd) hsub

/-- C4 amended witness: the tied pair above stays in input order. -/
theorem tie_order_input_witness :
    List.Sublist [snapTieZ, snapTieA] (zP.filter_snaps fsP [snapTieZ, snapTieA]) :=
  tie_order_input zP fsP [snapTieZ, snapTieA] snapTieZ snapTieA (by decide) (by decide)

/-! ### Splitting lemmas -/

theorem splitSep_ne_nil (sep : Char) (l : Str) : splitSep sep l ≠ [] := by
  cases l with
  | nil => simp [splitSep]
  | cons c rest =>
    simp only [splitSep]
    cases h : splitSep sep rest with
    | nil => simp
    | cons s ss => by_cases hcs : c = sep <;> simp [hcs]

/-- Splitting a list that starts with a separator-free chunk followed by
the separator yields that chunk as first piece. -/
theorem splitSep_append_sep (sep : Char) (a b : Str) (ha : sep ∉ a) :
    splitSep sep (a ++ sep :: b) = a :: splitSep sep b := by
  induction a with
  | nil =>
    simp only [List.nil_append, splitSep]
    cases hs : splitSep sep b with
    | nil => exact absurd hs (splitSep_ne_nil sep b)
    | cons s ss => simp
  | cons c a ih =>
    have hc : ¬ c = sep := fun h => ha (h ▸ List.mem_cons_self c a)
    have ha' : sep ∉ a := fun h => ha (List.mem_cons_of_mem c h)
    simp only [List.cons_append, splitSep, List.append_eq]
    rw [ih ha']
    simp [hc]

/-! ### C7: round-trip of the naming scheme -/

/-- A minimal five-field listing line whose name column is `name`
(`used` 0, both property columns `-`, creation 0). -/
def mkListingLine (name : Str) : Str := name ++ "\t0\t-\t-\t0".toList

/-- C7 counterexample: for the filesystem name `a@b` — a name containing
the snapshot separator — parsing the generated snapshot name back yields
owning filesystem `a`, not `a@b`: the round trip fails. -/
theorem sname_roundtrip_cex :
    ((str2fs (mkListingLine (zP.sname "a@b".toList (some "20".toList))) FsType.Snapshot).map
        FS.fs) = some "a".toList
    ∧ "a".toList ≠ "a@b".toList := by decide

/-- C7 amended: for every filesystem name that does not contain the
separator `@` (and tab-free name, prefix, label and timestamp — a tab
would end the name column of the listing), parsing a listing line whose
name column is the generated string `{name}@{prefix}_{label}-{timestamp}`
as a snapshot yields a record whose owning filesystem equals the
original name. -/
theorem sname_roundtrip (z : Zfs) (name ts : Str)
    (hat : '@' ∉ name) (h1 : '\t' ∉ name) (h2 : '\t' ∉ z.pfx)
    (h3 : '\t' ∉ z.label) (h4 : '\t' ∉ ts) :
    ∃ r, str2fs (mkListingLine (z.sname name (some ts))) FsType.Snapshot = some r
       ∧ r.name = z.sname name (some ts) ∧ r.fs = name := by
  have hgdef : z.sname name (some ts)
      = name ++ ('@' :: z.pfx) ++ ('_' :: z.label) ++ ('-' :: ts) := rfl
  have hgt : '\t' ∉ z.sname name (some ts) := by
    rw [hgdef]
    intro hmem
    rcases List.mem_append.mp hmem with hm | hm
    · rcases List.mem_append.mp hm with hm2 | hm2
      · rcases List.mem_append.mp hm2 with hm3 | hm3
        · exact h1 hm3
        · rcases List.mem_cons.mp hm3 with he | he
          · exact absurd he (by decide)
          · exact h2 he
      · rcases List.mem_cons.mp hm2 with he | he
        · exact absurd he (by decide)
        · exact h3 he
    · rcases List.mem_cons.mp hm with he | he
      · exact absurd he (by decide)
      · exact h4 he
  have hline : mkListingLine (z.sname name (some ts))
      = z.sname name (some ts) ++ '\t' :: "0\t-\t-\t0".toList := rfl
  have hsplit : splitSep '\t' (mkListingLine (z.sname name (some ts)))
      = z.sname name (some ts) :: splitSep '\t' "0\t-\t-\t0".toList := by
    rw [hline]
    exact splitSep_append_sep '\t' _ _ hgt
  have htail : splitSep '\t' "0\t-\t-\t0".toList
      = ["0".toList, "-".toList, "-".toList, "0".toList] := by decide
  have hp1 : (splitSep '\t' (mkListingLine (z.sname name (some ts))))[1]?
      = some "0".toList := by rw [hsplit, htail]; rfl
  have hp4 : (splitSep '\t' (mkListingLine (z.sname name (some ts))))[4]?
      = some "0".toList := by rw [hsplit, htail]; rfl
  refine ⟨_, str2fs_some FsType.Snapshot hp1 hp4, ?_, ?_⟩
  · show (splitSep '\t' (mkListingLine (z.sname name (some ts)))).headI
      = z.sname name (some ts)
    rw [hsplit]
    rfl
  · show (splitSep '@'
        ((splitSep '\t' (mkListingLine (z.sname name (some ts)))).headI)).headI = name
    rw [hsplit]
    show (splitSep '@' (z.sname name (some ts))).headI = name
    have hassoc : z.sname name (some ts)
        = name ++ '@' :: (z.pfx ++ '_' :: z.label ++ '-' :: ts) := by
      rw [hgdef]
      simp [List.append_assoc]
    rw [hassoc, splitSep_append_sep '@' name _ hat]
    rfl

/-- C7 amended witness: the round trip at the concrete name `tank`. -/
theorem sname_roundtrip_witness :
    ∃ r, str2fs (mkListingLine (zP.sname "tank".toList (some "20".toList))) FsType.Snapshot
        = some r
      ∧ r.name = zP.sname "tank".toList (some "20".toList) ∧ r.fs = "tank".toList :=
  sname_roundtrip zP "tank".toList "20".toList (by decide) (by decide) (by decide) (by decide)
    (by decide)

/-! ### C8: owning filesystem of the returned records -/

/-- Unfolding membership in the filter step. -/
theorem mem_matching {z : Zfs} {fs : FS} {snaps : List FS} {r : FS}
    (h : r ∈ z.matching fs snaps) :
    r ∈ snaps ∧ z.sname fs.name (some []) <+: r.name := by
  have h2 := List.mem_filter.mp h
  exact ⟨h2.1, of_decide_eq_true h2.2⟩

/-- Every element of the result list is an element of the sorted matching
list. -/
theorem mem_of_mem_expendable {z : Zfs} {fs : FS} {snaps : List FS} {r : FS}
    (hr : r ∈ z.find_expendable_snapshots fs snaps) : r ∈ z.filter_snaps fs snaps := by
  by_cases hz : (z.filter_snaps fs snaps).length > z.history
  · have hres : z.find_expendable_snapshots fs snaps
        = (z.filter_snaps fs snaps).take ((z.filter_snaps fs snaps).length - z.history) := by
      simp [Zfs.find_expendable_snapshots, hz]
    rw [hres] at hr
    exact List.mem_of_mem_take hr
  · simp [Zfs.find_expendable_snapshots, hz] at hr

/-- The `zP` configuration with `keep = 0`. -/
def z0P : Zfs := Zfs.new true "p".toList "l".toList 0 "T".toList

/-- A filesystem record whose name `a@b` contains the snapshot
separator. -/
def fsAtB : FS := (str2fs "a@b\t0\t-\t-\t0".toList FsType.Filesystem).getD default

/-- A parsed snapshot record over `a@b`: its owning filesystem is
truncated at the first `@`, giving `a`. -/
def snapAtB : FS :=
  (str2fs "a@b@p_l-x\t0\t-\t-\t5".toList FsType.Snapshot).getD default

/-- C8 counterexample: with the filesystem named `a@b`, the returned
expendable snapshot carries owning filesystem `a` ≠ `a@b`. -/
theorem expendable_owning_cex :
    ∃ r ∈ z0P.find_expendable_snapshots fsAtB [snapAtB], r.fs ≠ fsAtB.name := by decide

/-- C8 amended: every snapshot record produced by the parser stores as
owning filesystem the part of its name before the first `@`; and for a
filesystem whose name does not contain `@`, applied to a list of such
parsed snapshot records, every record returned by
`find_expendable_snapshots` has owning filesystem equal to the
filesystem's name. -/
theorem expendable_owning_spec :
    (∀ (s : Str) (r : FS), str2fs s FsType.Snapshot = some r →
        r.fs = (splitSep '@' r.name).headI)
  ∧ ∀ (z : Zfs) (fs : FS) (snaps : List FS),
      '@' ∉ fs.name →
      (∀ sn ∈ snaps, sn.fs = (splitSep '@' sn.name).headI) →
      ∀ r ∈ z.find_expendable_snapshots fs snaps, r.fs = fs.name := by
  constructor
  · intro s r h
    cases h1 : (splitSep '\t' s)[1]? with
    | none => simp [str2fs, h1] at h
    | some p1 =>
      cases h4 : (splitSep '\t' s)[4]? with
      | none => simp [str2fs, h1, h4] at h
      | some p4 =>
        rw [str2fs_some FsType.Snapshot h1 h4] at h
        injection h with h2
        rw [← h2]
  · intro z fs snaps hat hsn r hr
    have hr2 : r ∈ z.filter_snaps fs snaps := mem_of_mem_expendable hr
    have hr3 : r ∈ z.matching fs snaps := (filter_snaps_perm z fs snaps).subset hr2
    obtain ⟨hin, t, ht⟩ := mem_matching hr3
    have hfs := hsn r hin
    have hname : r.name = fs.name ++ '@' :: (z.pfx ++ '_' :: z.label ++ '-' :: t) := by
      rw [← ht]
      show z.sname fs.name (some []) ++ t = _
      simp [Zfs.sname, List.append_assoc]
    rw [hfs, hname, splitSep_append_sep '@' fs.name _ hat]
    rfl

/-- C8 amended witness: the retained conclusion at a concrete
`@`-free filesystem name. -/
theorem expendable_owning_spec_witness : snapNoFlag.fs = fsP.name :=
  expendable_owning_spec.2 z0P fsP [snapNoFlag] (by decide) (by decide) snapNoFlag (by decide)

/-! ### C10: unparsable creation fields -/

/-- A matching snapshot of `tank` whose creation field `zz` does not
parse as an integer. -/
def snapBadTs : FS :=
  (str2fs "tank@p_l-b\t0\t-\t-\tzz".toList FsType.Snapshot).getD default

/-- C10: a present but unparsable creation field defaults to epoch 0
(`unwrap_or_default`), and a matching snapshot with date 0 — when every
other matching snapshot has a strictly positive date and the retention
window is exceeded — is the first record returned by
`find_expendable_snapshots`. -/
theorem unparsable_creation_spec :
    (∀ (s : Str) (ft : FsType) (r : FS) (p4 : Str), str2fs s ft = some r →
        (splitSep '\t' s)[4]? = some p4 → parseInt p4 = none → r.date = 0)
  ∧ ∀ (z : Zfs) (fs : FS) (snaps : List FS) (s0 : FS),
      s0 ∈ z.matching fs snaps → s0.date = 0 →
      (∀ y ∈ z.matching fs snaps, y ≠ s0 → 0 < y.date) →
      z.history < (z.matching fs snaps).length →
      (z.find_expendable_snapshots fs snaps).head? = some s0 := by
  constructor
  · intro s ft r p4 h h4 hpi
    cases h1 : (splitSep '\t' s)[1]? with
    | none => simp [str2fs, h1] at h
    | some p1 =>
      rw [str2fs_some ft h1 h4] at h
      injection h with h2
      rw [← h2]
      show (parseInt p4).getD 0 = 0
      rw [hpi]
      rfl
  · intro z fs snaps s0 hm hd0 hpos hlen
    have hperm := filter_snaps_perm z fs snaps
    have hsort := filter_snaps_sorted z fs snaps
    have hm' : s0 ∈ z.filter_snaps fs snaps := hperm.mem_iff.mpr hm
    have hmin : ∀ y ∈ z.filter_snaps fs snaps, y ≠ s0 → s0.date < y.date := by
      intro y hy hne
      have hp := hpos y (hperm.subset hy) hne
      omega
    have hhead := head_of_strict_min hsort hm' hmin
    have hflen := filter_snaps_length z fs snaps
    have hgt : (z.filter_snaps fs snaps).length > z.history := by omega
    have hres : z.find_expendable_snapshots fs snaps
        = (z.filter_snaps fs snaps).take ((z.filter_snaps fs snaps).length - z.history) := by
      simp [Zfs.find_expendable_snapshots, hgt]
    rw [hres]
    cases hl : z.filter_snaps fs snaps with
    | nil => rw [hl] at hhead; cases hhead
    | cons a tl =>
      rw [hl] at hhead hgt
      obtain ⟨k', hk'⟩ : ∃ k', (a :: tl).length - z.history = k' + 1 :=
        ⟨(a :: tl).length - z.history - 1, by omega⟩
      rw [hk', List.take_succ_cons]
      simpa using hhead

/-- C10 witness: the snapshot with creation field `zz` gets date 0 and is
returned first, ahead of a snapshot with date 10, under `keep = 1`. -/
theorem unparsable_creation_spec_witness :
    snapBadTs.date = 0
    ∧ (zP.find_expendable_snapshots fsP [snap500, snapBadTs]).head? = some snapBadTs := by
  constructor
  · exact unparsable_creation_spec.1 "tank@p_l-b\t0\t-\t-\tzz".toList FsType.Snapshot
      snapBadTs "zz".toList (by decide) (by decide) (by decide)
  · exact unparsable_creation_spec.2 zP fsP [snap500, snapBadTs] snapBadTs
      (by decide) (by decide) (by decide) (by decide)

end ZfsSnappers
